import Mathlib

/-!
# Verification of the rosepetal-image-engine compositing core

Shallow embedding of the C++ sources under `src/rosepetal-image-engine/src/`
(`mosaic.cpp`, `advanced-mosaic.cpp`, `concat.cpp`, `blend.cpp`, `rotate.cpp`,
`filter.cpp`, `utils.h`) and proofs about the embedded operations.

Modelling conventions:
* images are rectangular pixel grids with an explicit width/height and a total
  pixel-lookup function (`Img`);
* C++ `double` arithmetic on angles, opacities and matrix entries is embedded
  as exact rational arithmetic (`ℚ`) — all compared constants (`1e-3`, `90`,
  `360`, …) are exactly representable;
* OpenCV primitives whose pixel-level semantics the code relies on
  (`cv::rotate`, `copyMakeBorder`, `hconcat`, ROI `copyTo`) are embedded as
  pixel permutations / region writes following their documented semantics;
  `cv::resize` and the warp interpolation kernel are kept as explicit function
  parameters where a claim quantifies over them;
* C++ exceptions (`throw`, `std::stoul` failures) are embedded as `Except`.
-/

/-- A pixel grid: `pix c r` reads the pixel at column `c`, row `r`
(row 0 is the top row, matching OpenCV's coordinate convention). -/
structure Img (P : Type) where
  width : Nat
  height : Nat
  pix : Nat → Nat → P

/-- A `cv::Scalar` restricted to the three components `ParseColor` fills
(component 0 = blue, 1 = green, 2 = red for a BGR image). -/
abbrev Scalar := ℤ × ℤ × ℤ

/-- The five channel-format names the engine recognises. -/
def validFormats : List String := ["GRAY", "BGR", "RGB", "BGRA", "RGBA"]

/-- Membership form of the flag scan: `l.any (· == s) = true` iff `s ∈ l` (the flag-setting loops in the
negotiators are `any`-folds over string equality). -/
theorem list_any_beq_iff (l : List String) (s : String) :
    (l.any (fun ch => ch == s)) = true ↔ s ∈ l := by
  rw [List.any_eq_true]
  constructor
  · rintro ⟨x, hx, he⟩
    exact (beq_iff_eq.mp he) ▸ hx
  · intro h
    exact ⟨s, h, beq_self_eq_true s⟩

/-- From `mosaic.cpp`, `DetermineBestCanvasFormat` (lines 12–30): scans the
input list setting one flag per recognised format, returns `"BGR"` for the
empty list and otherwise the highest-priority flagged format under
RGBA > BGRA > RGB > BGR > GRAY. -/
def DetermineBestCanvasFormat (channels : List String) : String :=
  if channels = [] then "BGR"
  else
    let hasRGBA := channels.any (fun ch => ch == "RGBA")
    let hasBGRA := channels.any (fun ch => ch == "BGRA")
    let hasRGB := channels.any (fun ch => ch == "RGB")
    let hasBGR := channels.any (fun ch => ch == "BGR")
    if hasRGBA then "RGBA"
    else if hasBGRA then "BGRA"
    else if hasRGB then "RGB"
    else if hasBGR then "BGR"
    else "GRAY"

/-- Modelled from the spec (§4.2): the negotiator described by the spec's
words — the highest-priority format present in the input, `"BGR"` on the
empty list. Used to compare the source's negotiator against the spec. -/
def negotiateSpec (channels : List String) : String :=
  if channels = [] then "BGR"
  else if "RGBA" ∈ channels then "RGBA"
  else if "BGRA" ∈ channels then "BGRA"
  else if "RGB" ∈ channels then "RGB"
  else if "BGR" ∈ channels then "BGR"
  else "GRAY"

/-- The source negotiator agrees with the membership-based description. -/
theorem determineBestCanvasFormat_eq_spec (l : List String) :
    DetermineBestCanvasFormat l = negotiateSpec l := by
  unfold DetermineBestCanvasFormat negotiateSpec
  by_cases h : l = []
  · simp [h]
  · simp only [h, if_false]
    by_cases h1 : "RGBA" ∈ l <;>
      by_cases h2 : "BGRA" ∈ l <;>
        by_cases h3 : "RGB" ∈ l <;>
          by_cases h4 : "BGR" ∈ l <;>
            simp [list_any_beq_iff, h1, h2, h3, h4]

/-- The membership-based negotiator is invariant under any two lists with the
same members. -/
theorem negotiateSpec_congr (l l' : List String) (h : ∀ f, f ∈ l ↔ f ∈ l') :
    negotiateSpec l = negotiateSpec l' := by
  have he : l = [] ↔ l' = [] := by
    simp only [List.eq_nil_iff_forall_not_mem]
    constructor
    · intro hh x hx
      exact hh x ((h x).mpr hx)
    · intro hh x hx
      exact hh x ((h x).mp hx)
  unfold negotiateSpec
  by_cases h0 : l = []
  · simp [h0, he.mp h0]
  · have h0' : ¬ l' = [] := fun hh => h0 (he.mpr hh)
    simp only [h0, h0', if_false, h "RGBA", h "BGRA", h "RGB", h "BGR"]

/-- On a nonempty list of recognised format names, the negotiated format is a
member of the list. -/
theorem negotiateSpec_mem (l : List String) (hne : l ≠ [])
    (hval : ∀ f ∈ l, f ∈ validFormats) : negotiateSpec l ∈ l := by
  unfold negotiateSpec
  simp only [hne, if_false]
  by_cases h1 : "RGBA" ∈ l
  · simp [h1]
  by_cases h2 : "BGRA" ∈ l
  · simp [h1, h2]
  by_cases h3 : "RGB" ∈ l
  · simp [h1, h2, h3]
  by_cases h4 : "BGR" ∈ l
  · simp [h1, h2, h3, h4]
  simp only [h1, h2, h3, h4, if_false]
  obtain ⟨x, hx⟩ := List.exists_mem_of_ne_nil l hne
  have hv := hval x hx
  simp only [validFormats, List.mem_cons, List.not_mem_nil, or_false] at hv
  rcases hv with h | h | h | h | h
  · exact h ▸ hx
  · exact absurd (h ▸ hx) h4
  · exact absurd (h ▸ hx) h3
  · exact absurd (h ▸ hx) h2
  · exact absurd (h ▸ hx) h1

/-- C6 (confirmed): the format negotiator `DetermineBestCanvasFormat` of
`mosaic.cpp` is a deterministic function of the set of input formats —
invariant under permutation and repetition (any two lists with the same
members agree) — it returns `"BGR"` on the empty list, and on any nonempty
list of recognised formats it returns the highest-priority format present
under the fixed order RGBA > BGRA > RGB > BGR > GRAY (in particular the
returned format occurs in the input). -/
theorem C6_negotiator_deterministic :
    (∀ l l' : List String, (∀ f, f ∈ l ↔ f ∈ l') →
        DetermineBestCanvasFormat l = DetermineBestCanvasFormat l') ∧
    DetermineBestCanvasFormat [] = "BGR" ∧
    (∀ l : List String, l ≠ [] → (∀ f ∈ l, f ∈ validFormats) →
        DetermineBestCanvasFormat l = negotiateSpec l ∧
        DetermineBestCanvasFormat l ∈ l) := by
  refine ⟨fun l l' h => ?_, by decide, fun l hne hval => ?_⟩
  · rw [determineBestCanvasFormat_eq_spec, determineBestCanvasFormat_eq_spec]
    exact negotiateSpec_congr l l' h
  · rw [determineBestCanvasFormat_eq_spec]
    exact ⟨rfl, negotiateSpec_mem l hne hval⟩

/-- Witness for C6 at concrete inputs: the spec's own example
`negotiate(["BGR","RGBA","GRAY"]) = negotiate(["RGBA","GRAY","BGR"]) = "RGBA"`
and the empty-list default. -/
theorem C6_negotiator_deterministic_witness :
    DetermineBestCanvasFormat ["BGR", "RGBA", "GRAY"] =
        DetermineBestCanvasFormat ["RGBA", "GRAY", "BGR"] ∧
    DetermineBestCanvasFormat ["BGR", "RGBA", "GRAY"] = "RGBA" ∧
    DetermineBestCanvasFormat [] = "BGR" := by
  refine ⟨C6_negotiator_deterministic.1 _ _ ?_, ?_, C6_negotiator_deterministic.2.1⟩
  · intro f
    constructor <;> intro hf <;> simp only [List.mem_cons, List.not_mem_nil,
      or_false] at hf ⊢ <;> tauto
  · have h := (C6_negotiator_deterministic.2.2 ["BGR", "RGBA", "GRAY"]
      (by decide) (by decide)).1
    rw [h]
    decide

/-- From `concat.cpp`, `ConvertToTargetFormat` (lines 60–102), reduced to its
format dispatch: `some code` means the image is converted with
`cv::cvtColor(src, dst, code)`; `none` means the function returns the source
buffer unchanged — both the `srcFormat == targetFormat` early return (line 62)
and the final fallback `dst = src` (lines 96–99). The C++ function has no
error path of any kind. -/
def ConvertToTargetFormat (srcFormat targetFormat : String) : Option String :=
  if srcFormat = targetFormat then none
  else if srcFormat = "GRAY" ∧ targetFormat = "BGR" then some "COLOR_GRAY2BGR"
  else if srcFormat = "GRAY" ∧ targetFormat = "RGB" then some "COLOR_GRAY2RGB"
  else if srcFormat = "GRAY" ∧ targetFormat = "BGRA" then some "COLOR_GRAY2BGRA"
  else if srcFormat = "GRAY" ∧ targetFormat = "RGBA" then some "COLOR_GRAY2RGBA"
  else if srcFormat = "BGR" ∧ targetFormat = "RGB" then some "COLOR_BGR2RGB"
  else if srcFormat = "RGB" ∧ targetFormat = "BGR" then some "COLOR_RGB2BGR"
  else if srcFormat = "BGR" ∧ targetFormat = "BGRA" then some "COLOR_BGR2BGRA"
  else if srcFormat = "BGR" ∧ targetFormat = "RGBA" then some "COLOR_BGR2RGBA"
  else if srcFormat = "RGB" ∧ targetFormat = "RGBA" then some "COLOR_RGB2RGBA"
  else if srcFormat = "RGB" ∧ targetFormat = "BGRA" then some "COLOR_RGB2BGRA"
  else if srcFormat = "BGRA" ∧ targetFormat = "BGR" then some "COLOR_BGRA2BGR"
  else if srcFormat = "RGBA" ∧ targetFormat = "RGB" then some "COLOR_RGBA2RGB"
  else if srcFormat = "BGRA" ∧ targetFormat = "RGBA" then some "COLOR_BGRA2RGBA"
  else if srcFormat = "RGBA" ∧ targetFormat = "BGRA" then some "COLOR_RGBA2BGRA"
  else none

/-- From `advanced-mosaic.cpp`, `PlaceImageOnCanvas` (lines 302–381), the
canvas-format × image-format conversion dispatch: `some code` means
`cv::cvtColor` with that code, `none` means the source region is used
directly. Each canvas branch ends in a catch-all `else`, so every pair is
handled without error. -/
def advPlaceConvert (canvasChannel imgChannel : String) : Option String :=
  if canvasChannel = "GRAY" then
    if imgChannel = "GRAY" then none
    else if imgChannel = "RGB" then some "COLOR_RGB2GRAY"
    else if imgChannel = "RGBA" then some "COLOR_RGBA2GRAY"
    else if imgChannel = "BGRA" then some "COLOR_BGRA2GRAY"
    else some "COLOR_BGR2GRAY"
  else if canvasChannel = "BGR" then
    if imgChannel = "GRAY" then some "COLOR_GRAY2BGR"
    else if imgChannel = "RGB" then some "COLOR_RGB2BGR"
    else if imgChannel = "RGBA" then some "COLOR_RGBA2BGR"
    else if imgChannel = "BGRA" then some "COLOR_BGRA2BGR"
    else none
  else if canvasChannel = "RGB" then
    if imgChannel = "GRAY" then some "COLOR_GRAY2RGB"
    else if imgChannel = "RGB" then none
    else if imgChannel = "RGBA" then some "COLOR_RGBA2RGB"
    else if imgChannel = "BGRA" then some "COLOR_BGRA2RGB"
    else some "COLOR_BGR2RGB"
  else if canvasChannel = "BGRA" then
    if imgChannel = "GRAY" then some "COLOR_GRAY2BGRA"
    else if imgChannel = "RGB" then some "COLOR_RGB2BGRA"
    else if imgChannel = "RGBA" then some "COLOR_RGBA2BGRA"
    else if imgChannel = "BGRA" then none
    else some "COLOR_BGR2BGRA"
  else if canvasChannel = "RGBA" then
    if imgChannel = "GRAY" then some "COLOR_GRAY2RGBA"
    else if imgChannel = "RGB" then some "COLOR_RGB2RGBA"
    else if imgChannel = "RGBA" then none
    else if imgChannel = "BGRA" then some "COLOR_BGRA2RGBA"
    else some "COLOR_BGR2RGBA"
  else
    if imgChannel = "GRAY" then some "COLOR_GRAY2BGR"
    else if imgChannel = "RGB" then some "COLOR_RGB2BGR"
    else if imgChannel = "RGBA" then some "COLOR_RGBA2BGR"
    else if imgChannel = "BGRA" then some "COLOR_BGRA2BGR"
    else none

/-- The six ordered pairs of recognised formats (source, target) that
`concat.cpp`'s converter does not handle: its if-chain reaches the silent
`dst = src` fallback on them. -/
def unsupportedConcatPairs : List (String × String) :=
  [("BGR", "GRAY"), ("RGB", "GRAY"), ("BGRA", "GRAY"), ("RGBA", "GRAY"),
   ("BGRA", "RGB"), ("RGBA", "BGR")]

/-- C1 counterexample: the ordered pair (BGR, GRAY) is among the 20 pairs of
recognised formats with distinct source and target, yet `concat.cpp`'s
`ConvertToTargetFormat` performs no conversion on it — it silently returns
the input data unconverted (the function has no `FormatConversionError`
path at all). -/
theorem C1_concat_converter_counterexample :
    "BGR" ∈ validFormats ∧ "GRAY" ∈ validFormats ∧ "BGR" ≠ "GRAY" ∧
    ConvertToTargetFormat "BGR" "GRAY" = none := by decide

/-- C1 (amended): `concat.cpp`'s `ConvertToTargetFormat` converts exactly 14
of the 20 ordered pairs of distinct recognised formats; on the other six
(every conversion to GRAY, plus BGRA→RGB and RGBA→BGR) it silently returns
the input unconverted, and it never fails. `advanced-mosaic.cpp`'s placement
conversion, by contrast, handles all 20 ordered pairs via catch-all
branches. -/
theorem C1_concat_converter_amended :
    (∀ f ∈ validFormats, ∀ t ∈ validFormats, f ≠ t →
        (ConvertToTargetFormat f t = none ↔ (f, t) ∈ unsupportedConcatPairs)) ∧
    (∀ f ∈ validFormats, ∀ t ∈ validFormats, f ≠ t →
        advPlaceConvert t f ≠ none) := by
  constructor <;> decide

/-- Witness for C1's amended theorem at the pair (RGBA, BGR): the concat
converter silently skips it while the advanced-mosaic placement converter
handles it. -/
theorem C1_concat_converter_amended_witness :
    ConvertToTargetFormat "RGBA" "BGR" = none ∧
    advPlaceConvert "BGR" "RGBA" ≠ none :=
  ⟨(C1_concat_converter_amended.1 "RGBA" (by decide) "BGR" (by decide)
      (by decide)).mpr (by decide),
   C1_concat_converter_amended.2 "RGBA" (by decide) "BGR" (by decide)
      (by decide)⟩

/-- Direction enum of `concat.cpp` (line 7). -/
inductive Direction
  | right
  | left
  | up
  | down
deriving DecidableEq, Repr

/-- Strategy enum of `concat.cpp` (line 8). -/
inductive Strategy
  | resize
  | padStart
  | padEnd
  | padBoth
deriving DecidableEq, Repr

/-- Returns `true` when `needle` occurs at the start of `hay` (helper for the
`std::string::find` model). -/
def charsLeadWith : List Char → List Char → Bool
  | [], _ => true
  | _ :: _, [] => false
  | a :: as, b :: bs => a == b && charsLeadWith as bs

/-- Substring test: `strContainsSub needle hay` models `hay.find(needle) != std::string::npos`:
`needle` occurs as a contiguous substring of `hay`. -/
def strContainsSub (needle hay : List Char) : Bool :=
  match hay with
  | [] => charsLeadWith needle []
  | _ :: t => charsLeadWith needle hay || strContainsSub needle t

/-- From `ConcatWorker`'s constructor (`concat.cpp` lines 120–123): any
direction string other than `"right"`, `"left"`, `"up"` silently becomes
`DOWN`. -/
def concatParseDirection (dir : String) : Direction :=
  if dir = "right" then .right
  else if dir = "left" then .left
  else if dir = "up" then .up
  else .down

/-- From `ConcatWorker`'s constructor (`concat.cpp` lines 125–128): a strategy
containing `"resize"` becomes `RESIZE`; `"pad-start"` and `"pad-end"` map to
themselves; anything else silently becomes `PAD_BOTH`. -/
def concatParseStrategy (strat : String) : Strategy :=
  if strContainsSub "resize".toList strat.toList then .resize
  else if strat = "pad-start" then .padStart
  else if strat = "pad-end" then .padEnd
  else .padBoth

/-- The five filter operations of `filter.cpp`. -/
inductive FilterOp
  | blur
  | sharpen
  | edge
  | emboss
  | gaussian
deriving DecidableEq, Repr

/-- From `FilterWorker::Execute` (`filter.cpp` lines 60–73): dispatch on the
filter name; an unrecognised name throws
`std::runtime_error("Unknown filter type: " + filterType_)`, which surfaces
through `SetError`/`OnError` as a fatal error with no output. -/
def filterDispatch (filterType : String) : Except String FilterOp :=
  if filterType = "blur" then .ok .blur
  else if filterType = "sharpen" then .ok .sharpen
  else if filterType = "edge" then .ok .edge
  else if filterType = "emboss" then .ok .emboss
  else if filterType = "gaussian" then .ok .gaussian
  else .error ("Unknown filter type: " ++ filterType)

/-- C4 counterexample: the unrecognised direction `"diagonal"` and the
unrecognised strategy `"bogus"` reach `ConcatWorker`'s dispatch and are
silently mapped to the defaults `DOWN` and `PAD_BOTH` — no fatal
`UnknownOperator` error is raised there. -/
theorem C4_unknown_operator_counterexample :
    concatParseDirection "diagonal" = Direction.down ∧
    concatParseStrategy "bogus" = Strategy.padBoth ∧
    "diagonal" ∉ ["right", "left", "up", "down"] ∧
    "bogus" ∉ ["resize", "pad-start", "pad-end", "pad-both"] := by decide

/-- C4 (amended): only `filter.cpp` fails with a fatal unknown-operator error
on an unrecognised name; `concat.cpp` silently maps every unrecognised
direction to `DOWN` and every unrecognised strategy (one not containing
`"resize"` and differing from `"pad-start"`/`"pad-end"`) to `PAD_BOTH`. -/
theorem C4_unknown_operator_amended :
    (∀ s : String, s ∉ ["blur", "sharpen", "edge", "emboss", "gaussian"] →
        filterDispatch s = .error ("Unknown filter type: " ++ s)) ∧
    (∀ s : String, s ∉ ["right", "left", "up"] →
        concatParseDirection s = .down) ∧
    (∀ s : String, strContainsSub "resize".toList s.toList = false →
        s ∉ ["pad-start", "pad-end"] → concatParseStrategy s = .padBoth) := by
  refine ⟨fun s h => ?_, fun s h => ?_, fun s h1 h2 => ?_⟩
  · simp only [List.mem_cons, List.not_mem_nil, or_false, not_or] at h
    obtain ⟨n1, n2, n3, n4, n5⟩ := h
    simp [filterDispatch, n1, n2, n3, n4, n5]
  · simp only [List.mem_cons, List.not_mem_nil, or_false, not_or] at h
    obtain ⟨n1, n2, n3⟩ := h
    simp [concatParseDirection, n1, n2, n3]
  · simp only [List.mem_cons, List.not_mem_nil, or_false, not_or] at h2
    obtain ⟨n1, n2⟩ := h2
    simp only [concatParseStrategy]
    rw [h1]
    simp [n1, n2]

/-- Witness for C4's amended theorem at concrete unrecognised names. -/
theorem C4_unknown_operator_amended_witness :
    filterDispatch "sepia" = .error "Unknown filter type: sepia" ∧
    concatParseDirection "diag" = .down ∧
    concatParseStrategy "center" = .padBoth :=
  ⟨C4_unknown_operator_amended.1 "sepia" (by decide),
   C4_unknown_operator_amended.2.1 "diag" (by decide),
   C4_unknown_operator_amended.2.2 "center" (by decide) (by decide)⟩

/-- Value of a hexadecimal digit character, if any (the digits
`std::stoul(…, 16)` accepts). -/
def hexDigitVal (c : Char) : Option Nat :=
  if '0' ≤ c ∧ c ≤ '9' then some (c.toNat - '0'.toNat)
  else if 'a' ≤ c ∧ c ≤ 'f' then some (c.toNat - 'a'.toNat + 10)
  else if 'A' ≤ c ∧ c ≤ 'F' then some (c.toNat - 'A'.toNat + 10)
  else none

/-- Accumulates a run of hexadecimal digits, stopping at the first
non-hex-digit character. -/
def hexAccum (acc : Nat) : List Char → Nat
  | [] => acc
  | c :: t =>
    match hexDigitVal c with
    | some d => hexAccum (16 * acc + d) t
    | none => acc

/-- Whitespace characters recognised by `isspace` in the default C locale
(the characters `std::stoul` skips before the number). -/
def cSpace (c : Char) : Bool :=
  c == ' ' || c == '\t' || c == '\n' || c == '\x0B' || c == '\x0C' || c == '\r'

/-- Parses a leading run of hexadecimal digits; `none` when the first
character is not a hex digit. -/
def hexRun : List Char → Option Nat
  | [] => none
  | c :: t =>
    match hexDigitVal c with
    | some d => some (hexAccum d t)
    | none => none

/-- `ULONG_MAX` on the LP64 platforms this Node addon targets. -/
def ulongMax : ℕ := 2 ^ 64 - 1

/-- Models `std::stoul(s, nullptr, 16)` as called on the tail of a `#` color
string: skip leading whitespace; accept an optional `-` or `+` sign; with
base 16, accept an optional `0x`/`0X` prefix (when no hex digit follows the
prefix, the subject sequence is just the `0`, value 0); then convert the
longest run of hex digits. When no subject sequence exists the C++ call
throws `std::invalid_argument`; when the converted magnitude exceeds
`ULONG_MAX` it throws `std::out_of_range`; a `-` sign negates the value in
unsigned (mod `2^64`) arithmetic. -/
def stoulHex (s : List Char) : Except String ℕ :=
  let s1 := s.dropWhile (fun c => cSpace c)
  let signed : Bool × List Char :=
    match s1 with
    | '-' :: t => (true, t)
    | '+' :: t => (false, t)
    | _ => (false, s1)
  let digits : Option ℕ :=
    match signed.2 with
    | '0' :: x :: t =>
      if x = 'x' ∨ x = 'X' then
        match hexRun t with
        | some v => some v
        | none => some 0
      else hexRun signed.2
    | _ => hexRun signed.2
  match digits with
  | none => .error "invalid argument"
  | some n =>
    if ulongMax < n then .error "out of range"
    else .ok (if signed.1 then (2 ^ 64 - n) % 2 ^ 64 else n)

/-- Accumulates a run of decimal digits, returning the value and the rest. -/
def decAccum (acc : Nat) : List Char → Nat × List Char
  | [] => (acc, [])
  | c :: t =>
    if '0' ≤ c ∧ c ≤ '9' then decAccum (10 * acc + (c.toNat - '0'.toNat)) t
    else (acc, c :: t)

/-- Models one `%d` conversion of `sscanf`: skip leading whitespace, then an
optional `-` or `+` sign followed by at least one decimal digit. (Integer
overflow of `%d` is undefined behaviour in C and is not modelled.) -/
def scanInt (s : List Char) : Option (ℤ × List Char) :=
  match s.dropWhile (fun c => cSpace c) with
  | [] => none
  | c :: t =>
    if c = '-' ∨ c = '+' then
      match t with
      | [] => none
      | d :: u =>
        if '0' ≤ d ∧ d ≤ '9' then
          let p := decAccum (d.toNat - '0'.toNat) u
          some (if c = '-' then -(p.1 : ℤ) else (p.1 : ℤ), p.2)
        else none
    else if '0' ≤ c ∧ c ≤ '9' then
      let p := decAccum (c.toNat - '0'.toNat) t
      some ((p.1 : ℤ), p.2)
    else none

/-- Consumes an exact literal character. -/
def expectChar (c : Char) : List Char → Option (List Char)
  | [] => none
  | a :: t => if a = c then some t else none

/-- Consumes an exact literal string. -/
def stripLead : List Char → List Char → Option (List Char)
  | [], s => some s
  | _ :: _, [] => none
  | c :: t, a :: s => if a = c then stripLead t s else none

/-- Models `sscanf(s, "rgb(%d,%d,%d)", &r, &g, &b) == 3`: the literal `rgb(`
then three integers separated by commas. (The trailing `)` in the format is
irrelevant to the `== 3` test: `sscanf` has already converted all three
fields by the time it looks at it, so it is not required here either.) -/
def sscanfRgb (s : List Char) : Option (ℤ × ℤ × ℤ) := do
  let s1 ← stripLead "rgb(".toList s
  let (r, s2) ← scanInt s1
  let s3 ← expectChar ',' s2
  let (g, s4) ← scanInt s3
  let s5 ← expectChar ',' s4
  let (b, _) ← scanInt s5
  pure (r, g, b)

/-- From `utils.h`, `ParseColor` (lines 219–234): converts `#RRGGBB` or
`rgb(r,g,b)` to `cv::Scalar(B,G,R)` and returns the supplied default when
the string is empty or matches neither form — except that a string starting
with `#` makes `std::stoul` parse the tail, and stoul's
`std::invalid_argument` (no convertible subject sequence) or
`std::out_of_range` (magnitude beyond `ULONG_MAX`) propagates uncaught out
of `ParseColor` (modelled as `.error`). -/
def ParseColor (s : List Char) (dflt : Scalar) : Except String Scalar :=
  match s with
  | [] => .ok dflt
  | c :: t =>
    if c = '#' then
      match stoulHex t with
      | .error e => .error ("stoul: " ++ e)
      | .ok v =>
        .ok (((v &&& 0xFF : ℕ) : ℤ), (((v >>> 8) &&& 0xFF : ℕ) : ℤ),
             (((v >>> 16) &&& 0xFF : ℕ) : ℤ))
    else
      match sscanfRgb (c :: t) with
      | some (r, g, b) => .ok (b, g, r)
      | none => .ok dflt

/-- C10 counterexample: `"#zz"` is neither `#RRGGBB` nor `rgb(r,g,b)`, yet
`ParseColor` does not return the default — `std::stoul` throws and the call
aborts. -/
theorem C10_parse_color_counterexample :
    ParseColor "#zz".toList (0, 0, 0) = .error "stoul: invalid argument" ∧
    ParseColor "#zz".toList (0, 0, 0) ≠ .ok (0, 0, 0) := by
  constructor
  · rfl
  · intro h
    rw [show ParseColor "#zz".toList (0, 0, 0) = .error "stoul: invalid argument"
      from rfl] at h
    exact Except.noConfusion h

/-- C10 (amended): for the empty string and for any string not starting with
`#` on which `sscanf` fails to match `rgb(%d,%d,%d)` (where `%d` skips
leading whitespace and accepts a sign), `ParseColor` silently returns the
supplied default; recognised inputs parse to a color — including hex tails
with leading whitespace, a `+`/`-` sign, or a `0x` prefix, all of which
`std::stoul` accepts, and rgb strings with whitespace before a number. But a
`#`-string whose tail has no convertible subject sequence makes `std::stoul`
throw `std::invalid_argument`, and one whose converted magnitude exceeds
`ULONG_MAX` makes it throw `std::out_of_range`; both propagate out of
`ParseColor`, so color parsing can abort a call. -/
theorem C10_parse_color_amended :
    (∀ dflt : Scalar, ParseColor [] dflt = .ok dflt) ∧
    (∀ (c : Char) (t : List Char) (dflt : Scalar), c ≠ '#' →
        sscanfRgb (c :: t) = none → ParseColor (c :: t) dflt = .ok dflt) ∧
    (∀ (t : List Char) (dflt : Scalar) (e : String), stoulHex t = .error e →
        ParseColor ('#' :: t) dflt = .error ("stoul: " ++ e)) ∧
    ParseColor "#FF0000".toList (0, 0, 0) = .ok (0, 0, 255) ∧
    ParseColor "# 12".toList (0, 0, 0) = .ok (18, 0, 0) ∧
    ParseColor "#+ff".toList (0, 0, 0) = .ok (255, 0, 0) ∧
    ParseColor "#-1".toList (0, 0, 0) = .ok (255, 255, 255) ∧
    ParseColor "#0xFF".toList (0, 0, 0) = .ok (255, 0, 0) ∧
    ParseColor "#FFFFFFFFFFFFFFFFFF".toList (0, 0, 0) =
      .error "stoul: out of range" ∧
    ParseColor "rgb(1,2,3)".toList (0, 0, 0) = .ok (3, 2, 1) ∧
    ParseColor "rgb( 1,2,3)".toList (0, 0, 0) = .ok (3, 2, 1) := by
  refine ⟨fun dflt => rfl, fun c t dflt hc hs => ?_, fun t dflt e hs => ?_,
    rfl, rfl, rfl, rfl, rfl, rfl, rfl, rfl⟩
  · simp only [ParseColor, if_neg hc, hs]
  · unfold ParseColor
    simp [hs]

/-- Witness for C10's amended theorem at concrete strings: `"not a color"`
falls back to the default `(9, 9, 9)` and `"#zz"` aborts with
`std::invalid_argument`. -/
theorem C10_parse_color_amended_witness :
    ParseColor "not a color".toList (9, 9, 9) = .ok (9, 9, 9) ∧
    ParseColor "#zz".toList (9, 9, 9) = .error "stoul: invalid argument" :=
  ⟨C10_parse_color_amended.2.1 'n' " ot a color".toList.tail (9, 9, 9)
      (by decide) (by rfl),
   C10_parse_color_amended.2.2.1 "zz".toList (9, 9, 9) "invalid argument"
      (by rfl)⟩

/-- From `mosaic.cpp`, `MosaicWorker::PlaceImageFast` (lines 181–208) and
`advanced-mosaic.cpp`, `AdvancedMosaicWorker::PlaceImageOnCanvas`
(lines 270–292): the clipped blit of `img` at integer position `(x, y)` onto
a `cw × ch` canvas, modelled as a total pixel map `ℤ → ℤ → P`. Early exits:
skip when the top-left is at or beyond the far edge (`x ≥ cw ∨ y ≥ ch`),
when the bottom-right is at or before the near edge
(`x + w ≤ 0 ∨ y + h ≤ 0`), or when the clipped width/height is `≤ 0`.
Otherwise the source rectangle starting at `(srcX, srcY) = (max 0 (-x),
max 0 (-y))` is written at `(dstX, dstY) = (max 0 x, max 0 y)` with extent
`min (w - srcX) (cw - dstX) × min (h - srcY) (ch - dstY)`; the per-pixel
channel conversion applied to the source region (`cvtColor`, whose dispatch
is `advPlaceConvert`) is carried as the pixel function `conv`. The C++
`let`-names are substituted inline. -/
def placeImage {P : Type} (cw ch : ℤ) (conv : P → P) (img : Img P)
    (x y : ℤ) (canvas : ℤ → ℤ → P) : ℤ → ℤ → P :=
  if x ≥ cw ∨ y ≥ ch then canvas
  else if x + img.width ≤ 0 ∨ y + img.height ≤ 0 then canvas
  else if min ((img.width : ℤ) - max 0 (-x)) (cw - max 0 x) ≤ 0 ∨
          min ((img.height : ℤ) - max 0 (-y)) (ch - max 0 y) ≤ 0 then canvas
  else fun i j =>
    if max 0 x ≤ i ∧ i < max 0 x + min ((img.width : ℤ) - max 0 (-x)) (cw - max 0 x) ∧
       max 0 y ≤ j ∧ j < max 0 y + min ((img.height : ℤ) - max 0 (-y)) (ch - max 0 y) then
      conv (img.pix (max 0 (-x) + (i - max 0 x)).toNat (max 0 (-y) + (j - max 0 y)).toNat)
    else canvas i j

/-- A blit whose early-exit test fires leaves every canvas pixel unchanged. -/
theorem placeImage_skip {P : Type} (cw ch : ℤ) (conv : P → P) (img : Img P)
    (x y : ℤ) (canvas : ℤ → ℤ → P)
    (h : x ≥ cw ∨ y ≥ ch ∨ x + img.width ≤ 0 ∨ y + img.height ≤ 0)
    (i j : ℤ) : placeImage cw ch conv img x y canvas i j = canvas i j := by
  unfold placeImage
  by_cases h1 : x ≥ cw ∨ y ≥ ch
  · simp [h1]
  · have h2 : x + img.width ≤ 0 ∨ y + img.height ≤ 0 := by tauto
    simp [h1, h2]

/-- Frame property: a blit changes nothing outside the clipped destination
rectangle. -/
theorem placeImage_frame {P : Type} (cw ch : ℤ) (conv : P → P) (img : Img P)
    (x y : ℤ) (canvas : ℤ → ℤ → P) (i j : ℤ)
    (h : ¬ (max 0 x ≤ i ∧
        i < max 0 x + min ((img.width : ℤ) - max 0 (-x)) (cw - max 0 x) ∧
        max 0 y ≤ j ∧
        j < max 0 y + min ((img.height : ℤ) - max 0 (-y)) (ch - max 0 y))) :
    placeImage cw ch conv img x y canvas i j = canvas i j := by
  unfold placeImage
  split_ifs with h1 h2 h3
  · rfl
  · rfl
  · rfl
  · exact if_neg h

/-- Inside the clipped destination rectangle, a blit writes the (converted)
source pixel. -/
theorem placeImage_inside {P : Type} (cw ch : ℤ) (conv : P → P) (img : Img P)
    (x y : ℤ) (canvas : ℤ → ℤ → P) (i j : ℤ)
    (hin : max 0 x ≤ i ∧
        i < max 0 x + min ((img.width : ℤ) - max 0 (-x)) (cw - max 0 x) ∧
        max 0 y ≤ j ∧
        j < max 0 y + min ((img.height : ℤ) - max 0 (-y)) (ch - max 0 y)) :
    placeImage cw ch conv img x y canvas i j =
      conv (img.pix (max 0 (-x) + (i - max 0 x)).toNat
                    (max 0 (-y) + (j - max 0 y)).toNat) := by
  obtain ⟨hi1, hi2, hj1, hj2⟩ := hin
  have hwpos : 0 < min ((img.width : ℤ) - max 0 (-x)) (cw - max 0 x) := by
    linarith
  have hhpos : 0 < min ((img.height : ℤ) - max 0 (-y)) (ch - max 0 y) := by
    linarith
  have hw1 : 0 < (img.width : ℤ) - max 0 (-x) :=
    lt_of_lt_of_le hwpos (min_le_left _ _)
  have hw2 : 0 < cw - max 0 x := lt_of_lt_of_le hwpos (min_le_right _ _)
  have hh1 : 0 < (img.height : ℤ) - max 0 (-y) :=
    lt_of_lt_of_le hhpos (min_le_left _ _)
  have hh2 : 0 < ch - max 0 y := lt_of_lt_of_le hhpos (min_le_right _ _)
  have hxcw : ¬ (x ≥ cw ∨ y ≥ ch) := by
    push_neg
    constructor
    · have := le_max_right (0 : ℤ) x
      linarith
    · have := le_max_right (0 : ℤ) y
      linarith
  have hnear : ¬ (x + (img.width : ℤ) ≤ 0 ∨ y + (img.height : ℤ) ≤ 0) := by
    push_neg
    constructor
    · have := le_max_right (0 : ℤ) (-x)
      linarith
    · have := le_max_right (0 : ℤ) (-y)
      linarith
  unfold placeImage
  rw [if_neg hxcw, if_neg hnear, if_neg (by push_neg; omega)]
  exact if_pos ⟨hi1, hi2, hj1, hj2⟩

/-- C9 (confirmed): a placement directive with no overlap with the canvas
(top-left at or beyond the far edge, or bottom-right at or before the near
edge) is skipped entirely, leaving every canvas pixel unchanged; an
overlapping directive modifies only the clipped destination rectangle
`dstX = max 0 x`, `dstY = max 0 y`,
`width = min (imgW - srcX) (canvasW - dstX)`,
`height = min (imgH - srcY) (canvasH - dstY)` with `srcX = max 0 (-x)`,
`srcY = max 0 (-y)` — every pixel outside that rectangle is unchanged. -/
theorem C9_placement_clipping {P : Type} (cw ch : ℤ) (conv : P → P)
    (img : Img P) (x y : ℤ) (canvas : ℤ → ℤ → P) (i j : ℤ) :
    (x ≥ cw ∨ y ≥ ch ∨ x + img.width ≤ 0 ∨ y + img.height ≤ 0 →
      placeImage cw ch conv img x y canvas i j = canvas i j) ∧
    (¬ (max 0 x ≤ i ∧
          i < max 0 x + min ((img.width : ℤ) - max 0 (-x)) (cw - max 0 x) ∧
          max 0 y ≤ j ∧
          j < max 0 y + min ((img.height : ℤ) - max 0 (-y)) (ch - max 0 y)) →
      placeImage cw ch conv img x y canvas i j = canvas i j) :=
  ⟨fun h => placeImage_skip cw ch conv img x y canvas h i j,
   fun h => placeImage_frame cw ch conv img x y canvas i j h⟩

/-- Witness for C9 on a 100×100 canvas: a 50×50 image placed at
`x = canvasWidth + 10 = 110` (the spec's own example) leaves the probed
canvas pixel unchanged, and an overlapping placement at `(25, 25)` leaves a
pixel outside its destination rectangle unchanged. -/
theorem C9_placement_clipping_witness :
    placeImage (P := ℕ) 100 100 id ⟨50, 50, fun _ _ => 255⟩ 110 0
        (fun _ _ => 7) 60 60 = 7 ∧
    placeImage (P := ℕ) 100 100 id ⟨50, 50, fun _ _ => 255⟩ 25 25
        (fun _ _ => 7) 10 10 = 7 :=
  ⟨(C9_placement_clipping 100 100 id ⟨50, 50, fun _ _ => 255⟩ 110 0
      (fun _ _ => 7) 60 60).1 (by norm_num),
   (C9_placement_clipping 100 100 id ⟨50, 50, fun _ _ => 255⟩ 25 25
      (fun _ _ => 7) 10 10).2 (by norm_num)⟩

/-- From `advanced-mosaic.cpp`, `struct ImageConfig` (lines 186–192);
`width`/`height` are `-1` for "keep original", `zIndex` defaults to the
array position when absent (constructor line 94). -/
structure ImageConfig where
  arrayIndex : ℤ
  x : ℚ
  y : ℚ
  rotation : ℚ
  width : ℤ
  height : ℤ
  zIndex : ℤ
deriving DecidableEq, Repr

/-- Postcondition of the `std::sort` call in `AdvancedMosaicWorker`'s
constructor (`advanced-mosaic.cpp` lines 112–116) with comparator
`a.zIndex < b.zIndex`. `std::sort` guarantees exactly this: the result is a
permutation of the input that is non-decreasing in `zIndex`. Unlike
`std::stable_sort` it guarantees nothing about the relative order of equal
keys, so the faithful model is the relation admitting every
comparator-sorted permutation. -/
def cppSortPost (l l' : List ImageConfig) : Prop :=
  l'.Perm l ∧ l'.Sorted (fun a b => a.zIndex ≤ b.zIndex)

/-- The z-ordered painting loop of `AdvancedMosaicWorker::Execute`
(`advanced-mosaic.cpp` lines 150–153): fold the clipped blit over the
directives' transformed images in processing order. Each item carries the
transformed image and its integer position; `conv` is the per-pixel
conversion into the canvas format applied at placement time. -/
def paintAll {P : Type} (cw ch : ℤ) (conv : P → P)
    (items : List (Img P × ℤ × ℤ)) (canvas : ℤ → ℤ → P) : ℤ → ℤ → P :=
  items.foldl (fun c it => placeImage cw ch conv it.1 it.2.1 it.2.2 c) canvas

/-- Two directives with equal `zIndex`. -/
def cfgA : ImageConfig := ⟨0, 0, 0, 0, -1, -1, 5⟩

/-- Second directive with the same `zIndex` as `cfgA`. -/
def cfgB : ImageConfig := ⟨1, 0, 0, 0, -1, -1, 5⟩

/-- C2 counterexample: for the two equal-`zIndex` directives
`[cfgA, cfgB]`, the output `[cfgB, cfgA]` satisfies everything the code's
`std::sort` call guarantees (a permutation, non-decreasing in `zIndex`),
yet it reverses the original relative order — the claimed stable-sort
behaviour is not guaranteed by the code. -/
theorem C2_zorder_counterexample :
    cppSortPost [cfgA, cfgB] [cfgB, cfgA] ∧
    [cfgB, cfgA] ≠ [cfgA, cfgB] := by
  refine ⟨⟨?_, ?_⟩, ?_⟩
  · decide
  · decide
  · decide

/-- C2 (amended): the compositor paints the directives in ascending `zIndex`
order — any earlier-processed directive has `zIndex ≤` any later one — and
in any overlap region the canvas shows the pixels of the directive painted
last: after painting any list of directives, a pixel inside the clipped
destination rectangle of the final directive holds that directive's
(converted) pixel, regardless of everything painted before. The relative
order of directives with equal `zIndex` is not guaranteed (the code uses
`std::sort`, which is not stable). -/
theorem C2_zorder_ascending_last_wins :
    (∀ l l' : List ImageConfig, cppSortPost l l' →
      ∀ (i j : Fin l'.length), i < j →
        (l'.get i).zIndex ≤ (l'.get j).zIndex) ∧
    (∀ (P : Type) (cw ch : ℤ) (conv : P → P)
        (items : List (Img P × ℤ × ℤ)) (it : Img P × ℤ × ℤ)
        (canvas : ℤ → ℤ → P) (i j : ℤ),
      (max 0 it.2.1 ≤ i ∧
        i < max 0 it.2.1 +
            min ((it.1.width : ℤ) - max 0 (-it.2.1)) (cw - max 0 it.2.1) ∧
        max 0 it.2.2 ≤ j ∧
        j < max 0 it.2.2 +
            min ((it.1.height : ℤ) - max 0 (-it.2.2)) (ch - max 0 it.2.2)) →
      paintAll cw ch conv (items ++ [it]) canvas i j =
        conv (it.1.pix (max 0 (-it.2.1) + (i - max 0 it.2.1)).toNat
                       (max 0 (-it.2.2) + (j - max 0 it.2.2)).toNat)) := by
  constructor
  · rintro l l' ⟨_, hsort⟩ i j hij
    exact List.pairwise_iff_get.mp hsort i j hij
  · intro P cw ch conv items it canvas i j hin
    rw [paintAll, List.foldl_append]
    exact placeImage_inside cw ch conv it.1 it.2.1 it.2.2 _ i j hin

/-- Witness for C2's amended theorem: two overlapping 10×10 images at the
origin of a 100×100 canvas, processed in sorted order; the probed overlap
pixel shows the later (higher-zIndex) image's value 2, and the sorted
processing order `[zIndex 0, zIndex 1]` of the input `[zIndex 1, zIndex 0]`
is ascending. -/
theorem C2_zorder_ascending_last_wins_witness :
    paintAll (P := ℕ) 100 100 id
        [(⟨10, 10, fun _ _ => 1⟩, 0, 0), (⟨10, 10, fun _ _ => 2⟩, 0, 0)]
        (fun _ _ => 0) 5 5 = 2 ∧
    (([⟨0, 0, 0, 0, -1, -1, 0⟩, ⟨1, 0, 0, 0, -1, -1, 1⟩] :
        List ImageConfig).get ⟨0, by decide⟩).zIndex ≤
      (([⟨0, 0, 0, 0, -1, -1, 0⟩, ⟨1, 0, 0, 0, -1, -1, 1⟩] :
        List ImageConfig).get ⟨1, by decide⟩).zIndex :=
  ⟨C2_zorder_ascending_last_wins.2 ℕ 100 100 id
      [(⟨10, 10, fun _ _ => 1⟩, 0, 0)] (⟨10, 10, fun _ _ => 2⟩, 0, 0)
      (fun _ _ => 0) 5 5 (by norm_num),
   C2_zorder_ascending_last_wins.1 [⟨1, 0, 0, 0, -1, -1, 1⟩, ⟨0, 0, 0, 0, -1, -1, 0⟩]
      [⟨0, 0, 0, 0, -1, -1, 0⟩, ⟨1, 0, 0, 0, -1, -1, 1⟩]
      ⟨by decide, by decide⟩ ⟨0, by decide⟩ ⟨1, by decide⟩ (by decide)⟩

/-- Model of `cv::ROTATE_90_CLOCKWISE`: the image content rotated 90° clockwise;
destination pixel `(c, r)` reads source pixel `(r, H-1-c)`. -/
def cvRotate90CW {P : Type} (img : Img P) : Img P :=
  ⟨img.height, img.width, fun c r => img.pix r (img.height - 1 - c)⟩

/-- Model of `cv::ROTATE_90_COUNTERCLOCKWISE`: the image content rotated 90°
counter-clockwise (the mathematical standard, matching `numpy.rot90`);
destination pixel `(c, r)` reads source pixel `(W-1-r, c)`. -/
def cvRotate90CCW {P : Type} (img : Img P) : Img P :=
  ⟨img.height, img.width, fun c r => img.pix (img.width - 1 - r) c⟩

/-- Model of `cv::ROTATE_180`. -/
def cvRotate180 {P : Type} (img : Img P) : Img P :=
  ⟨img.width, img.height,
   fun c r => img.pix (img.width - 1 - c) (img.height - 1 - r)⟩

/-- Truncation toward zero, as C++ integer conversion and the quotient
implied by `std::fmod` behave. -/
def ratTrunc (q : ℚ) : ℤ := if 0 ≤ q then ⌊q⌋ else -⌊-q⌋

/-- Model of `std::fmod x y` for `y ≠ 0`: `x - y * trunc (x / y)` (the result carries
the sign of `x`). -/
def cppFmod (x y : ℚ) : ℚ := x - y * ratTrunc (x / y)

/-- Outcome of a rotation step: an exact fast-path pixel permutation (no
interpolation), or the general `cv::warpAffine` path with the rotation
matrix built by `cv::getRotationMatrix2D` at the recorded angle. -/
inductive RotOutcome (P : Type)
  | exact (img : Img P)
  | warp (matrixAngle : ℚ)

/-- Pixel probe: `some` on a fast-path (exact) outcome, `none` on a warp. -/
def RotOutcome.pixAt {P : Type} : RotOutcome P → Nat → Nat → Option P
  | .exact img, c, r => some (img.pix c r)
  | .warp _, _, _ => none

/-- Dimension probe of a fast-path outcome. -/
def RotOutcome.dims {P : Type} : RotOutcome P → Option (Nat × Nat)
  | .exact img => some (img.width, img.height)
  | .warp _ => none

/-- From `advanced-mosaic.cpp`, `ProcessImageFast` step 2 (lines 220–262):
rotation is skipped when `|rotation| ≤ 1e-3`; otherwise the angle is
normalised as `fmod(rotation + 360, 360)` and dispatched: near 0/360 no-op,
near 90 `ROTATE_90_COUNTERCLOCKWISE`, near 180 `ROTATE_180`, near 270
`ROTATE_90_CLOCKWISE`; any other angle goes to `warpAffine` with
`getRotationMatrix2D(center, -rotation, 1.0)` — the angle is negated
(line 242). -/
def advMosaicRotate {P : Type} (rotation : ℚ) (img : Img P) : RotOutcome P :=
  if ¬ (|rotation| > 1/1000) then .exact img
  else
    let n := cppFmod (rotation + 360) 360
    if |n| < 1/1000 ∨ |n - 360| < 1/1000 then .exact img
    else if |n - 90| < 1/1000 then .exact (cvRotate90CCW img)
    else if |n - 180| < 1/1000 then .exact (cvRotate180 img)
    else if |n - 270| < 1/1000 then .exact (cvRotate90CW img)
    else .warp (-rotation)

/-- From `rotate.cpp`, `RotateWorker::Execute` (lines 42–66): the angle is
normalised as `fmod(angleDeg + 360, 360)`; near 0 no-op, near 90
`ROTATE_90_CLOCKWISE`, near 180 `ROTATE_180`, near 270
`ROTATE_90_COUNTERCLOCKWISE`; any other angle goes to `warpAffine` with
`getRotationMatrix2D(center, angleDeg, 1.0)` — the angle is NOT negated
(line 55). -/
def rotateWorkerRotate {P : Type} (angleDeg : ℚ) (img : Img P) : RotOutcome P :=
  let n := cppFmod (angleDeg + 360) 360
  if |n| < 1/1000 then .exact img
  else if |n - 90| < 1/1000 then .exact (cvRotate90CW img)
  else if |n - 180| < 1/1000 then .exact (cvRotate180 img)
  else if |n - 270| < 1/1000 then .exact (cvRotate90CCW img)
  else .warp angleDeg

/-- Evaluation of `advanced-mosaic.cpp` at rotation +90: counter-clockwise fast path. -/
theorem advMosaicRotate_90 {P : Type} (img : Img P) :
    advMosaicRotate 90 img = .exact (cvRotate90CCW img) := by
  simp only [advMosaicRotate]
  norm_num [cppFmod, ratTrunc]

/-- Evaluation of `advanced-mosaic.cpp` at rotation +270: clockwise fast path. -/
theorem advMosaicRotate_270 {P : Type} (img : Img P) :
    advMosaicRotate 270 img = .exact (cvRotate90CW img) := by
  simp only [advMosaicRotate]
  norm_num [cppFmod, ratTrunc]

/-- Evaluation of `advanced-mosaic.cpp` at rotation +45: warp path with the angle
negated. -/
theorem advMosaicRotate_45 {P : Type} (img : Img P) :
    advMosaicRotate 45 img = .warp (-45) := by
  simp only [advMosaicRotate]
  norm_num [cppFmod, ratTrunc]

/-- Evaluation of `rotate.cpp` at angle +90: CLOCKWISE fast path. -/
theorem rotateWorkerRotate_90 {P : Type} (img : Img P) :
    rotateWorkerRotate 90 img = .exact (cvRotate90CW img) := by
  simp only [rotateWorkerRotate]
  norm_num [cppFmod, ratTrunc]

/-- Evaluation of `rotate.cpp` at angle +270: counter-clockwise fast path. -/
theorem rotateWorkerRotate_270 {P : Type} (img : Img P) :
    rotateWorkerRotate 270 img = .exact (cvRotate90CCW img) := by
  simp only [rotateWorkerRotate]
  norm_num [cppFmod, ratTrunc]

/-- Evaluation of `rotate.cpp` at angle +45: warp path with the angle unnegated. -/
theorem rotateWorkerRotate_45 {P : Type} (img : Img P) :
    rotateWorkerRotate 45 img = .warp 45 := by
  simp only [rotateWorkerRotate]
  norm_num [cppFmod, ratTrunc]

/-- C3 counterexample: on the 2×1 image with pixels `0, 1`, `rotate.cpp`'s
+90° fast path is the CLOCKWISE rotation — pixel (0,0) of its result is 0,
while the counter-clockwise rotation puts 1 there — and its arbitrary-angle
path hands +45° to the rotation primitive unnegated. The claimed
"positive angle rotates counter-clockwise, with the angle negated before
the primitive" fails on the rotate.cpp code path. -/
theorem C3_rotation_counterexample :
    (rotateWorkerRotate 90 (⟨2, 1, fun c _ => c⟩ : Img ℕ)).pixAt 0 0 = some 0 ∧
    (cvRotate90CCW (⟨2, 1, fun c _ => c⟩ : Img ℕ)).pix 0 0 = 1 ∧
    some 0 ≠ some ((cvRotate90CCW (⟨2, 1, fun c _ => c⟩ : Img ℕ)).pix 0 0) ∧
    rotateWorkerRotate 45 (⟨2, 1, fun c _ => c⟩ : Img ℕ) = .warp 45 := by
  refine ⟨?_, rfl, by decide, rotateWorkerRotate_45 _⟩
  rw [rotateWorkerRotate_90]
  rfl

/-- C3 (amended): the two rotation implementations disagree on the sign
convention. `advanced-mosaic.cpp` rotates counter-clockwise at +90°
(`ROTATE_90_COUNTERCLOCKWISE`), clockwise at +270°, and negates the angle
before `getRotationMatrix2D` on the arbitrary-angle path; `rotate.cpp`
rotates CLOCKWISE at +90°, counter-clockwise at +270°, and passes the angle
unnegated. Both implementations' 90°/270° fast paths swap width and height
via an exact pixel permutation (no interpolation). -/
theorem C3_rotation_amended :
    (∀ (P : Type) (img : Img P) (c r : ℕ),
      (advMosaicRotate 90 img).pixAt c r = some ((cvRotate90CCW img).pix c r) ∧
      (advMosaicRotate 270 img).pixAt c r = some ((cvRotate90CW img).pix c r) ∧
      (rotateWorkerRotate 90 img).pixAt c r =
          some ((cvRotate90CW img).pix c r) ∧
      (rotateWorkerRotate 270 img).pixAt c r =
          some ((cvRotate90CCW img).pix c r)) ∧
    (∀ (P : Type) (img : Img P),
      (advMosaicRotate 90 img).dims = some (img.height, img.width) ∧
      (advMosaicRotate 270 img).dims = some (img.height, img.width) ∧
      (rotateWorkerRotate 90 img).dims = some (img.height, img.width) ∧
      (rotateWorkerRotate 270 img).dims = some (img.height, img.width)) ∧
    (∀ (P : Type) (img : Img P),
      advMosaicRotate 45 img = .warp (-45) ∧
      rotateWorkerRotate 45 img = .warp 45) := by
  refine ⟨fun P img c r => ?_, fun P img => ?_,
    fun P img => ⟨advMosaicRotate_45 img, rotateWorkerRotate_45 img⟩⟩
  · rw [advMosaicRotate_90, advMosaicRotate_270, rotateWorkerRotate_90,
      rotateWorkerRotate_270]
    exact ⟨rfl, rfl, rfl, rfl⟩
  · rw [advMosaicRotate_90, advMosaicRotate_270, rotateWorkerRotate_90,
      rotateWorkerRotate_270]
    exact ⟨rfl, rfl, rfl, rfl⟩

/-- The rotated-output width computed by both `rotate.cpp` (line 59) and
`advanced-mosaic.cpp` (lines 245–248): `int(h*sinA + w*cosA)` where
`cosA = |M₀₀|` and `sinA = |M₀₁|` are the absolute values of the rotation
matrix entries `α = cos angle`, `β = sin angle` of
`cv::getRotationMatrix2D`; the C++ `int` cast truncates (= floor, the
operand being nonnegative). Parameterised by the exact entry values
`al = α`, `be = β`. -/
def rotNewW (w h : ℕ) (al be : ℚ) : ℤ := ratTrunc ((h : ℚ) * |be| + (w : ℚ) * |al|)

/-- The rotated-output height: `int(h*cosA + w*sinA)`. -/
def rotNewH (w h : ℕ) (al be : ℚ) : ℤ := ratTrunc ((h : ℚ) * |al| + (w : ℚ) * |be|)

/-- The x-coordinate to which `cv::warpAffine` maps a source point
`(px, py)` after the translation adjustment of `rotate.cpp` lines 61–62 /
`advanced-mosaic.cpp` lines 251–252: the matrix
`[[α, β, (1-α)·cx - β·cy], [-β, α, β·cx + (1-α)·cy]]` of
`getRotationMatrix2D` (OpenCV documentation) about the centre
`(cx, cy) = (w/2, h/2)`, with `newSize.width/2 - cx` added to the x
translation. -/
def rotMapX (w h : ℕ) (al be : ℚ) (px py : ℚ) : ℚ :=
  al * px + be * py + ((1 - al) * ((w : ℚ) / 2) - be * ((h : ℚ) / 2)) +
    ((rotNewW w h al be : ℚ) / 2 - (w : ℚ) / 2)

/-- The y-coordinate of the adjusted affine map, with
`newSize.height/2 - cy` added to the y translation. -/
def rotMapY (w h : ℕ) (al be : ℚ) (px py : ℚ) : ℚ :=
  -be * px + al * py + (be * ((w : ℚ) / 2) + (1 - al) * ((h : ℚ) / 2)) +
    ((rotNewH w h al be : ℚ) / 2 - (h : ℚ) / 2)

/-- The adjusted map, re-centred form: destination = new centre plus the
rotation of the offset from the source centre. -/
theorem rotMapX_eq (w h : ℕ) (al be : ℚ) (px py : ℚ) :
    rotMapX w h al be px py =
      (rotNewW w h al be : ℚ) / 2 + al * (px - (w : ℚ) / 2) +
        be * (py - (h : ℚ) / 2) := by
  unfold rotMapX
  ring

/-- Re-centred form of the y component. -/
theorem rotMapY_eq (w h : ℕ) (al be : ℚ) (px py : ℚ) :
    rotMapY w h al be px py =
      (rotNewH w h al be : ℚ) / 2 - be * (px - (w : ℚ) / 2) +
        al * (py - (h : ℚ) / 2) := by
  unfold rotMapY
  ring

/-- Truncation of a nonnegative rational lies within 1 below it. -/
theorem ratTrunc_nonneg_bounds (q : ℚ) (hq : 0 ≤ q) :
    q - 1 < (ratTrunc q : ℚ) ∧ (ratTrunc q : ℚ) ≤ q := by
  unfold ratTrunc
  rw [if_pos hq]
  exact ⟨Int.sub_one_lt_floor q, Int.floor_le q⟩

/-- C5 counterexample: for a 1×1 source and matrix entries
`α = 4/5, β = 3/5` (an exact rotation: `α² + β² = 1`), the code's output
width is `int(1·|3/5| + 1·|4/5|) = int(7/5) = 1`, which is NOT the claimed
`h·|sin θ| + w·|cos θ| = 7/5`; and the source corner `(1, 1)` — inside the
source square — maps to x-coordinate `6/5`, beyond the output bound `1`:
the truncation clips source content. -/
theorem C5_rotation_bounds_counterexample :
    (4/5 : ℚ) ^ 2 + (3/5 : ℚ) ^ 2 = 1 ∧
    (0 : ℚ) ≤ 1 ∧ (1 : ℚ) ≤ ((1 : ℕ) : ℚ) ∧
    rotNewW 1 1 (4/5) (3/5) = 1 ∧
    (rotNewW 1 1 (4/5) (3/5) : ℚ) ≠
      ((1 : ℕ) : ℚ) * |(3/5 : ℚ)| + ((1 : ℕ) : ℚ) * |(4/5 : ℚ)| ∧
    rotMapX 1 1 (4/5) (3/5) 1 1 = 6/5 ∧
    ¬ rotMapX 1 1 (4/5) (3/5) 1 1 ≤ (rotNewW 1 1 (4/5) (3/5) : ℚ) := by
  have hW : rotNewW 1 1 (4/5) (3/5) = 1 := by
    unfold rotNewW ratTrunc
    rw [show |(3/5 : ℚ)| = 3/5 by norm_num, show |(4/5 : ℚ)| = 4/5 by norm_num]
    norm_num
  have hM : rotMapX 1 1 (4/5) (3/5) 1 1 = 6/5 := by
    unfold rotMapX
    rw [hW]
    norm_num
  refine ⟨by norm_num, by norm_num, by norm_num, hW, ?_, hM, ?_⟩
  · rw [hW, show |(3/5 : ℚ)| = 3/5 by norm_num,
      show |(4/5 : ℚ)| = 4/5 by norm_num]
    norm_num
  · rw [hM, hW]
    norm_num

/-- C5 (amended): the output canvas of the arbitrary-angle rotation is the
integer truncation of `(h·|sin θ| + w·|cos θ|, h·|cos θ| + w·|sin θ|)`
(within 1 below the exact value), the adjusted translation maps the source
centre exactly to the new canvas centre, and every source point maps to
within half a pixel of the output bounds: strictly inside
`(-1/2, newW + 1/2) × (-1/2, newH + 1/2)`. Clipping from the truncation is
at most half a pixel per edge. -/
theorem C5_rotation_bounds_amended (w h : ℕ) (al be px py : ℚ)
    (hrot : al ^ 2 + be ^ 2 = 1)
    (hx0 : 0 ≤ px) (hxw : px ≤ (w : ℚ)) (hy0 : 0 ≤ py) (hyh : py ≤ (h : ℚ)) :
    ((h : ℚ) * |be| + (w : ℚ) * |al| - 1 < (rotNewW w h al be : ℚ) ∧
      (rotNewW w h al be : ℚ) ≤ (h : ℚ) * |be| + (w : ℚ) * |al|) ∧
    ((h : ℚ) * |al| + (w : ℚ) * |be| - 1 < (rotNewH w h al be : ℚ) ∧
      (rotNewH w h al be : ℚ) ≤ (h : ℚ) * |al| + (w : ℚ) * |be|) ∧
    rotMapX w h al be ((w : ℚ) / 2) ((h : ℚ) / 2) =
      (rotNewW w h al be : ℚ) / 2 ∧
    rotMapY w h al be ((w : ℚ) / 2) ((h : ℚ) / 2) =
      (rotNewH w h al be : ℚ) / 2 ∧
    (-(1 : ℚ) / 2 < rotMapX w h al be px py ∧
      rotMapX w h al be px py < (rotNewW w h al be : ℚ) + 1 / 2) ∧
    (-(1 : ℚ) / 2 < rotMapY w h al be px py ∧
      rotMapY w h al be px py < (rotNewH w h al be : ℚ) + 1 / 2) := by
  have hWe := ratTrunc_nonneg_bounds ((h : ℚ) * |be| + (w : ℚ) * |al|)
    (by positivity)
  have hHe := ratTrunc_nonneg_bounds ((h : ℚ) * |al| + (w : ℚ) * |be|)
    (by positivity)
  have hdx : |px - (w : ℚ) / 2| ≤ (w : ℚ) / 2 :=
    abs_le.mpr ⟨by linarith, by linarith⟩
  have hdy : |py - (h : ℚ) / 2| ≤ (h : ℚ) / 2 :=
    abs_le.mpr ⟨by linarith, by linarith⟩
  have habsX : |al * (px - (w : ℚ) / 2) + be * (py - (h : ℚ) / 2)| ≤
      ((h : ℚ) * |be| + (w : ℚ) * |al|) / 2 := by
    calc |al * (px - (w : ℚ) / 2) + be * (py - (h : ℚ) / 2)|
        ≤ |al * (px - (w : ℚ) / 2)| + |be * (py - (h : ℚ) / 2)| := abs_add _ _
      _ = |al| * |px - (w : ℚ) / 2| + |be| * |py - (h : ℚ) / 2| := by
          rw [abs_mul, abs_mul]
      _ ≤ |al| * ((w : ℚ) / 2) + |be| * ((h : ℚ) / 2) :=
          add_le_add (mul_le_mul_of_nonneg_left hdx (abs_nonneg al))
            (mul_le_mul_of_nonneg_left hdy (abs_nonneg be))
      _ = ((h : ℚ) * |be| + (w : ℚ) * |al|) / 2 := by ring
  have habsY : |-be * (px - (w : ℚ) / 2) + al * (py - (h : ℚ) / 2)| ≤
      ((h : ℚ) * |al| + (w : ℚ) * |be|) / 2 := by
    calc |-be * (px - (w : ℚ) / 2) + al * (py - (h : ℚ) / 2)|
        ≤ |-be * (px - (w : ℚ) / 2)| + |al * (py - (h : ℚ) / 2)| := abs_add _ _
      _ = |be| * |px - (w : ℚ) / 2| + |al| * |py - (h : ℚ) / 2| := by
          rw [abs_mul, abs_mul, abs_neg]
      _ ≤ |be| * ((w : ℚ) / 2) + |al| * ((h : ℚ) / 2) :=
          add_le_add (mul_le_mul_of_nonneg_left hdx (abs_nonneg be))
            (mul_le_mul_of_nonneg_left hdy (abs_nonneg al))
      _ = ((h : ℚ) * |al| + (w : ℚ) * |be|) / 2 := by ring
  obtain ⟨hXl, hXr⟩ := abs_le.mp habsX
  obtain ⟨hYl, hYr⟩ := abs_le.mp habsY
  refine ⟨⟨?_, ?_⟩, ⟨?_, ?_⟩, ?_, ?_, ⟨?_, ?_⟩, ⟨?_, ?_⟩⟩
  · unfold rotNewW
    linarith [hWe.1]
  · unfold rotNewW
    exact hWe.2
  · unfold rotNewH
    linarith [hHe.1]
  · unfold rotNewH
    exact hHe.2
  · rw [rotMapX_eq]
    ring
  · rw [rotMapY_eq]
    ring
  · rw [rotMapX_eq]
    unfold rotNewW
    linarith [hWe.1]
  · rw [rotMapX_eq]
    unfold rotNewW
    linarith [hWe.2]
  · rw [rotMapY_eq]
    unfold rotNewH
    linarith [hHe.1]
  · rw [rotMapY_eq]
    unfold rotNewH
    linarith [hHe.2]

/-- Witness for C5's amended theorem at the counterexample's instance
(`w = h = 1`, `α = 4/5`, `β = 3/5`, corner `(1,1)`): the mapped corner
`6/5` lies within half a pixel of the truncated bound `1`. -/
theorem C5_rotation_bounds_amended_witness :
    -(1 : ℚ) / 2 < rotMapX 1 1 (4/5) (3/5) 1 1 ∧
    rotMapX 1 1 (4/5) (3/5) 1 1 < (rotNewW 1 1 (4/5) (3/5) : ℚ) + 1 / 2 :=
  (C5_rotation_bounds_amended 1 1 (4/5) (3/5) 1 1 (by norm_num) (by norm_num)
    (by norm_num) (by norm_num) (by norm_num)).2.2.2.2.1

/-- From the `Blend` binding (`blend.cpp` line 122):
`opacity = std::max(0.0, std::min(1.0, opacity))`. -/
def blendClampOpacity (opacity : ℚ) : ℚ := max 0 (min 1 opacity)

/-- Model of `cv::saturate_cast<uchar>` saturation to the uint8 range. -/
def satCast (z : ℤ) : ℤ := max 0 (min 255 z)

/-- From `BlendWorker::Execute` (`blend.cpp` lines 56–69): when the two
images' sizes differ, the target size is the elementwise maximum of the two
and each image not already at the target size is resized to it
(`cv::resize`, whose interpolation is kept as the parameter `resizeFn`). -/
def blendNormalize {P : Type} (resizeFn : Img P → ℕ → ℕ → Img P)
    (img1 img2 : Img P) : Img P × Img P :=
  if img1.width = img2.width ∧ img1.height = img2.height then (img1, img2)
  else
    ((if img1.width = max img1.width img2.width ∧
          img1.height = max img1.height img2.height then img1
      else resizeFn img1 (max img1.width img2.width)
          (max img1.height img2.height)),
     (if img2.width = max img1.width img2.width ∧
          img2.height = max img1.height img2.height then img2
      else resizeFn img2 (max img1.width img2.width)
          (max img1.height img2.height)))

/-- Model of `cv::addWeighted(src1, alpha, src2, beta, 0.0, dst)` per the OpenCV
contract: `dst = saturate(src1*alpha + src2*beta)` per pixel, computed in
floating point. The float-to-integer rounding of `saturate_cast` is kept as
the parameter `rnd`; every property proved below holds for any rounding
that fixes integers. -/
def addWeighted (rnd : ℚ → ℤ) (src1 : Img ℤ) (alpha : ℚ) (src2 : Img ℤ)
    (beta : ℚ) : Img ℤ :=
  ⟨src1.width, src1.height,
   fun c r => satCast (rnd (alpha * src1.pix c r + beta * src2.pix c r))⟩

/-- The core of `BlendWorker::Execute` (`blend.cpp` lines 49–75), after both
inputs are in the negotiated channel format: size normalisation, then
`cv::addWeighted(img1, opacity, img2, 1.0 - opacity, 0.0, result)`. -/
def blendExec (rnd : ℚ → ℤ) (resizeFn : Img ℤ → ℕ → ℕ → Img ℤ)
    (opacity : ℚ) (img1 img2 : Img ℤ) : Img ℤ :=
  addWeighted rnd (blendNormalize resizeFn img1 img2).1 opacity
    (blendNormalize resizeFn img1 img2).2 (1 - opacity)

/-- The full blend call: the JS binding clamps the opacity
(`blend.cpp` line 122) before queuing the worker. -/
def blendCall (rnd : ℚ → ℤ) (resizeFn : Img ℤ → ℕ → ℕ → Img ℤ)
    (opacity : ℚ) (img1 img2 : Img ℤ) : Img ℤ :=
  blendExec rnd resizeFn (blendClampOpacity opacity) img1 img2

/-- C7 (confirmed): blend clamps opacity into `[0, 1]` (and leaves in-range
values unchanged); when the two images' dimensions differ both are brought
to the elementwise maximum of the dimensions (never cropped: each output
dimension is the max of the two inputs'); and for any resize interpolation
and any `saturate_cast` rounding that fixes integers, blending at opacity 0
returns exactly image B (after any such resize) and at opacity 1 exactly
image A, pixel for pixel, for in-range (uint8) pixel values. -/
theorem C7_blend_clamp_resize_endpoints :
    (∀ q : ℚ, 0 ≤ blendClampOpacity q ∧ blendClampOpacity q ≤ 1 ∧
      (0 ≤ q → q ≤ 1 → blendClampOpacity q = q)) ∧
    (∀ (P : Type) (resizeFn : Img P → ℕ → ℕ → Img P) (img1 img2 : Img P),
      (∀ img w' h', (resizeFn img w' h').width = w' ∧
          (resizeFn img w' h').height = h') →
      (blendNormalize resizeFn img1 img2).1.width = max img1.width img2.width ∧
      (blendNormalize resizeFn img1 img2).1.height =
          max img1.height img2.height ∧
      (blendNormalize resizeFn img1 img2).2.width = max img1.width img2.width ∧
      (blendNormalize resizeFn img1 img2).2.height =
          max img1.height img2.height) ∧
    (∀ (rnd : ℚ → ℤ) (resizeFn : Img ℤ → ℕ → ℕ → Img ℤ)
        (img1 img2 : Img ℤ) (c r : ℕ),
      (∀ z : ℤ, rnd (z : ℚ) = z) →
      (0 ≤ (blendNormalize resizeFn img1 img2).2.pix c r →
        (blendNormalize resizeFn img1 img2).2.pix c r ≤ 255 →
        (blendCall rnd resizeFn 0 img1 img2).pix c r =
          (blendNormalize resizeFn img1 img2).2.pix c r) ∧
      (0 ≤ (blendNormalize resizeFn img1 img2).1.pix c r →
        (blendNormalize resizeFn img1 img2).1.pix c r ≤ 255 →
        (blendCall rnd resizeFn 1 img1 img2).pix c r =
          (blendNormalize resizeFn img1 img2).1.pix c r)) := by
  refine ⟨fun q => ⟨le_max_left 0 _, ?_, fun h0 h1 => ?_⟩, ?_, ?_⟩
  · exact max_le (by norm_num) (min_le_left 1 q)
  · unfold blendClampOpacity
    rw [min_eq_right h1, max_eq_right h0]
  · intro P rz i1 i2 hres
    by_cases h : i1.width = i2.width ∧ i1.height = i2.height
    · simp only [blendNormalize, if_pos h]
      refine ⟨?_, ?_, ?_, ?_⟩ <;> simp <;> omega
    · simp only [blendNormalize, if_neg h]
      by_cases h1 : i1.width = max i1.width i2.width ∧
          i1.height = max i1.height i2.height
      · by_cases h2 : i2.width = max i1.width i2.width ∧
            i2.height = max i1.height i2.height
        · simp only [if_pos h1, if_pos h2]
          refine ⟨?_, ?_, ?_, ?_⟩ <;> simp <;> omega
        · simp only [if_pos h1, if_neg h2]
          have hr := hres i2 (max i1.width i2.width) (max i1.height i2.height)
          refine ⟨?_, ?_, ?_, ?_⟩ <;> simp [hr.1, hr.2] <;> omega
      · have hr := hres i1 (max i1.width i2.width) (max i1.height i2.height)
        by_cases h2 : i2.width = max i1.width i2.width ∧
            i2.height = max i1.height i2.height
        · simp only [if_neg h1, if_pos h2]
          refine ⟨?_, ?_, ?_, ?_⟩ <;> simp [hr.1, hr.2] <;> omega
        · have hr2 := hres i2 (max i1.width i2.width) (max i1.height i2.height)
          simp only [if_neg h1, if_neg h2]
          refine ⟨?_, ?_, ?_, ?_⟩ <;> simp [hr.1, hr.2, hr2.1, hr2.2]
  · intro rnd rz i1 i2 c r hrnd
    have hc0 : blendClampOpacity 0 = 0 := by
      unfold blendClampOpacity
      norm_num
    have hc1 : blendClampOpacity 1 = 1 := by
      unfold blendClampOpacity
      norm_num
    constructor
    · intro hlo hhi
      simp only [blendCall, blendExec, addWeighted, hc0]
      have he : (0 : ℚ) * ((blendNormalize rz i1 i2).1.pix c r : ℚ) +
          (1 - 0) * ((blendNormalize rz i1 i2).2.pix c r : ℚ) =
          (((blendNormalize rz i1 i2).2.pix c r : ℤ) : ℚ) := by
        ring
      rw [he, hrnd]
      unfold satCast
      omega
    · intro hlo hhi
      simp only [blendCall, blendExec, addWeighted, hc1]
      have he : (1 : ℚ) * ((blendNormalize rz i1 i2).1.pix c r : ℚ) +
          (1 - 1) * ((blendNormalize rz i1 i2).2.pix c r : ℚ) =
          (((blendNormalize rz i1 i2).1.pix c r : ℤ) : ℚ) := by
        ring
      rw [he, hrnd]
      unfold satCast
      omega

/-- Witness for C7 at concrete inputs: opacity `5/2` clamps into `[0, 1]`,
and blending a 1×1 image A of value 100 with a 2×1 image B of value 7 at
opacity 0 yields B's pixel value 7 (B is already at the elementwise-maximum
size; A is resized). -/
theorem C7_blend_clamp_resize_endpoints_witness :
    0 ≤ blendClampOpacity (5/2) ∧ blendClampOpacity (5/2) ≤ 1 ∧
    (blendCall (fun q => ⌊q⌋) (fun _ w' h' => ⟨w', h', fun _ _ => 0⟩) 0
        ⟨1, 1, fun _ _ => 100⟩ ⟨2, 1, fun _ _ => 7⟩).pix 0 0 = 7 := by
  have h := C7_blend_clamp_resize_endpoints
  refine ⟨(h.1 (5/2)).1, (h.1 (5/2)).2.1, ?_⟩
  have h3 := (h.2.2 (fun q => ⌊q⌋) (fun _ w' h' => ⟨w', h', fun _ _ => 0⟩)
      ⟨1, 1, fun _ _ => 100⟩ ⟨2, 1, fun _ _ => 7⟩ 0 0
      (fun z => Int.floor_intCast z)).1 (by norm_num [blendNormalize])
      (by norm_num [blendNormalize])
  rw [h3]
  norm_num [blendNormalize]

/-- From `concat.cpp`, `PreparePadColor` (lines 51–57): swap the R and B
components (0 and 2) of the pad color when the target format is RGB or
RGBA. -/
def PreparePadColor (c : Scalar) (channelFormat : String) : Scalar :=
  if channelFormat = "RGB" ∨ channelFormat = "RGBA" then (c.2.2, c.2.1, c.1)
  else c

/-- From `ConcatWorker::Execute` (`concat.cpp` lines 194–222), the padding
branch for the horizontal (left/right) direction: `delta = baseSize - rows`;
when `delta ≤ 0` the tile is unchanged; otherwise `pad-start` puts all
`delta` rows of `padColor` before (on top), `pad-end` after, `pad-both`
splits `before = delta / 2` (C++ integer division = floor) and
`after = delta - before`, via
`cv::copyMakeBorder(tile, out, before, after, 0, 0, BORDER_CONSTANT, pc)`.
The resize strategy takes a different branch (line 186) and is not part of
this padding path. -/
def padTileH (strat : Strategy) (base : ℕ) (pc : Scalar)
    (img : Img Scalar) : Img Scalar :=
  if base ≤ img.height then img
  else
    let delta := base - img.height
    let bef := match strat with
      | .padStart => delta
      | .padEnd => 0
      | .padBoth => delta / 2
      | .resize => 0
    ⟨img.width, img.height + delta,
     fun c r =>
       if r < bef then pc
       else if r < bef + img.height then img.pix c (r - bef)
       else pc⟩

/-- Model of `cv::hconcat` of two equal-height tiles: widths add, columns left of
`a.width` read `a`, the rest read `b`. -/
def hconcat2 (a b : Img Scalar) : Img Scalar :=
  ⟨a.width + b.width, a.height,
   fun c r => if c < a.width then a.pix c r else b.pix (c - a.width) r⟩

/-- Model of `ConcatWorker::Execute` for two images already converted to the output
format, direction `right` (no flip, input order), padding strategy:
`baseSize = max of the heights` (`maxH`, constructor lines 152–155), each
tile padded with `PreparePadColor(padColorRGB, outputChannel)`, then
`cv::hconcat`. -/
def concatPadRight2 (strat : Strategy) (padColorRGB : Scalar)
    (outputChannel : String) (m1 m2 : Img Scalar) : Img Scalar :=
  hconcat2
    (padTileH strat (max m1.height m2.height)
      (PreparePadColor padColorRGB outputChannel) m1)
    (padTileH strat (max m1.height m2.height)
      (PreparePadColor padColorRGB outputChannel) m2)

/-- The spec's concrete scenario: `imgA(10×20)` (uniform white). -/
def imgA1020 : Img Scalar := ⟨10, 20, fun _ _ => (255, 255, 255)⟩

/-- The spec's concrete scenario: `imgB(10×30)` (uniform value (9, 8, 7)). -/
def imgB1030 : Img Scalar := ⟨10, 30, fun _ _ => (9, 8, 7)⟩

/-- C8 (confirmed): under the pad-both strategy a tile whose cross-axis
dimension is `delta` short of the common size receives `⌊delta/2⌋` rows of
padding before the tile and `delta - ⌊delta/2⌋` after (the extra pixel, if
any, at the end); and the spec's concrete scenario holds:
`concat([imgA(10×20), imgB(10×30)], right, pad-both, #FF0000)` is a 20×30
image with imgA vertically centred between 5 red (BGR `(0,0,255)`) rows on
each side and imgB filling the right half. -/
theorem C8_concat_pad_both :
    (∀ (base : ℕ) (pc : Scalar) (img : Img Scalar), img.height < base →
      (padTileH .padBoth base pc img).width = img.width ∧
      (padTileH .padBoth base pc img).height = base ∧
      (∀ c r : ℕ,
        (r < (base - img.height) / 2 →
          (padTileH .padBoth base pc img).pix c r = pc) ∧
        ((base - img.height) / 2 ≤ r →
          r < (base - img.height) / 2 + img.height →
          (padTileH .padBoth base pc img).pix c r =
            img.pix c (r - (base - img.height) / 2)) ∧
        ((base - img.height) / 2 + img.height ≤ r →
          (padTileH .padBoth base pc img).pix c r = pc))) ∧
    (ParseColor "#FF0000".toList (0, 0, 0) = .ok (0, 0, 255) ∧
      (concatPadRight2 .padBoth (0, 0, 255) "BGR" imgA1020 imgB1030).width =
        20 ∧
      (concatPadRight2 .padBoth (0, 0, 255) "BGR" imgA1020 imgB1030).height =
        30 ∧
      (∀ c, c < 10 → ∀ r, r < 30 →
        (concatPadRight2 .padBoth (0, 0, 255) "BGR" imgA1020 imgB1030).pix c r =
          if r < 5 ∨ 25 ≤ r then (0, 0, 255) else (255, 255, 255)) ∧
      (∀ c, 10 ≤ c → c < 20 → ∀ r, r < 30 →
        (concatPadRight2 .padBoth (0, 0, 255) "BGR" imgA1020 imgB1030).pix c r =
          (9, 8, 7))) := by
  constructor
  · intro base pc img hlt
    have hnb : ¬ base ≤ img.height := by omega
    refine ⟨?_, ?_, fun c r => ⟨fun h1 => ?_, fun h2 h3 => ?_, fun h4 => ?_⟩⟩
    · simp only [padTileH, if_neg hnb]
    · simp only [padTileH, if_neg hnb]
      omega
    · simp only [padTileH, if_neg hnb]
      rw [if_pos h1]
    · simp only [padTileH, if_neg hnb]
      rw [if_neg (by omega), if_pos (by omega)]
    · simp only [padTileH, if_neg hnb]
      rw [if_neg (by omega), if_neg (by omega)]
  · refine ⟨rfl, rfl, rfl, ?_, ?_⟩
    · decide
    · decide

/-- Witness for C8 at the scenario's left tile: padding `imgA(10×20)` to the
common height 30 with red `(0,0,255)` yields height 30, red at row 0, the
tile's white at row 5, and red again at row 25. -/
theorem C8_concat_pad_both_witness :
    (padTileH .padBoth 30 (0, 0, 255) imgA1020).height = 30 ∧
    (padTileH .padBoth 30 (0, 0, 255) imgA1020).pix 0 0 = (0, 0, 255) ∧
    (padTileH .padBoth 30 (0, 0, 255) imgA1020).pix 0 5 = (255, 255, 255) ∧
    (padTileH .padBoth 30 (0, 0, 255) imgA1020).pix 0 25 = (0, 0, 255) := by
  have h := C8_concat_pad_both.1 30 (0, 0, 255) imgA1020
    (by norm_num [imgA1020])
  refine ⟨h.2.1, ?_, ?_, ?_⟩
  · exact (h.2.2 0 0).1 (by norm_num [imgA1020])
  · rw [(h.2.2 0 5).2.1 (by norm_num [imgA1020]) (by norm_num [imgA1020])]
    rfl
  · exact (h.2.2 0 25).2.2 (by norm_num [imgA1020])
